import Mathlib

/-! Pointer managers and extension traits of `bitsery/ext/pointer.h`.

A shallow embedding of the three pointer managers (`PtrOwnerManager`,
`PtrObserverManager`, `NonPtrManager`), of the `ReferencedByPointer`
extension class and of the three `ExtensionTraits` specialisations.

Conventions of the embedding:

* a raw pointer `TElement*` is an `Option Nat`: `none` is `nullptr`,
  `some a` is the address `a`;
* the free store is a `Heap`: the addresses of the instances that are alive
  and the log of the destructor calls made so far;
* a parameter `T& obj` that the C++ code mutates is passed in and returned:
  `assign` and `clear` map a slot and a heap to the new slot and the new heap.
-/

namespace bitsery

/-- A raw pointer `TElement*`: `none` is `nullptr`, `some a` is the address `a`. -/
abbrev Ptr := Option Nat

/-- The free store: `live` holds the addresses of the instances that are alive,
`destroyed` logs every destructor call, oldest first. -/
structure Heap where
  live : List Nat
  destroyed : List Nat
deriving DecidableEq, Repr

namespace Heap

/-- The C++ expression `delete p`: nothing happens for `nullptr`; otherwise the
instance at the address is destroyed (one destructor call is logged) and its
address is no longer alive. -/
def delete (h : Heap) : Ptr → Heap
  | none => h
  | some a => { live := h.live.filter (fun b => b != a), destroyed := h.destroyed ++ [a] }

/-- Whether a pointer refers to an instance that is alive; `nullptr` does not. -/
def isLive (h : Heap) : Ptr → Bool
  | none => false
  | some a => decide (a ∈ h.live)

end Heap

namespace ext

/-- Modelled from the spec: the enumeration `PointerOwnershipType` is declared in
`utils/pointer_utils.h`, which is not part of the sources at hand; its values
are the three ownership kinds the specification lists (Owner, Observer,
Embedded). The code of `pointer.h` only ever names `Owner` and `Observer`. -/
inductive PointerOwnershipType where
  | Owner
  | Observer
  | Embedded
deriving DecidableEq, Repr

/-- Modelled from the spec: the enumeration `PointerType` is declared in
`utils/pointer_utils.h`, which is not part of the sources at hand; its values
are the two nullability settings the specification lists. -/
inductive PointerType where
  | Nullable
  | NotNull
deriving DecidableEq, Repr

namespace pointer_details

/-- An lvalue `T& obj` of a non-pointer type: the inline storage has an address
of its own and holds a value. -/
structure Inline (T : Type) where
  addr : Nat
  value : T

namespace PtrOwnerManager

/-- `static TElement* getPtr(T& obj) { return obj; }` -/
def getPtr (obj : Ptr) : Ptr := obj

/-- `static constexpr PointerOwnershipType getOwnership()` of the owner manager. -/
def getOwnership : PointerOwnershipType := PointerOwnershipType.Owner

/-- `static void assign(T& obj, TElement* valuePtr) { delete obj; obj = valuePtr; }` -/
def assign (obj : Ptr) (valuePtr : Ptr) (h : Heap) : Ptr × Heap :=
  let h₁ := h.delete obj
  (valuePtr, h₁)

/-- `static void clear(T& obj) { delete obj; obj = nullptr; }` -/
def clear (obj : Ptr) (h : Heap) : Ptr × Heap :=
  let h₁ := h.delete obj
  (none, h₁)

end PtrOwnerManager

namespace PtrObserverManager

/-- `static TElement*& getPtrRef(T& obj) { return obj; }` -/
def getPtrRef (obj : Ptr) : Ptr := obj

/-- `static TElement* getPtr(T& obj) { return obj; }` -/
def getPtr (obj : Ptr) : Ptr := obj

/-- `static constexpr PointerOwnershipType getOwnership()` of the observer manager. -/
def getOwnership : PointerOwnershipType := PointerOwnershipType.Observer

/-- `static void assign(T& obj, TElement* valuePtr) { obj = valuePtr; }`: the
existing object is not deleted. -/
def assign (_obj : Ptr) (valuePtr : Ptr) (h : Heap) : Ptr × Heap :=
  (valuePtr, h)

/-- `static void clear(T& obj) { obj = nullptr; }` -/
def clear (_obj : Ptr) (h : Heap) : Ptr × Heap :=
  (none, h)

end PtrObserverManager

namespace NonPtrManager

/-- `static TElement* getPtr(T& obj) { return &obj; }` -/
def getPtr {T : Type} (obj : Inline T) : Ptr := some obj.addr

/-- `static constexpr PointerOwnershipType getOwnership()` of the manager of
inline values: the code returns `PointerOwnershipType::Owner`. -/
def getOwnership : PointerOwnershipType := PointerOwnershipType.Owner

/-- `static void assign(T& obj, TElement* valuePtr) {}` -/
def assign {T : Type} (obj : Inline T) (_valuePtr : Ptr) (h : Heap) : Inline T × Heap :=
  (obj, h)

/-- `static void clear(T& obj) {}` -/
def clear {T : Type} (obj : Inline T) (h : Heap) : Inline T × Heap :=
  (obj, h)

end NonPtrManager

end pointer_details

/-- Modelled from the spec: the class template `PointerObjectExtensionBase` is
declared in `utils/pointer_utils.h`, which is not part of the sources at hand.
What `pointer.h` shows of it is its constructor, which takes the `PointerType`
the extension is configured with; the object keeps that setting. -/
structure PointerObjectExtensionBase where
  ptrType : PointerType
deriving DecidableEq, Repr

/-- `class ReferencedByPointer`: the class declares one constructor, which takes
no argument, and no data member of its own. -/
inductive ReferencedByPointer where
  | mk
deriving DecidableEq, Repr

/-- The base-class subobject of a `ReferencedByPointer`, as its constructor
initialises it: `PointerObjectExtensionBase<...>(PointerType::NotNull)`. -/
def ReferencedByPointer.toBase : ReferencedByPointer → PointerObjectExtensionBase
  | ReferencedByPointer.mk => PointerObjectExtensionBase.mk PointerType.NotNull

/-- Modelled from the spec: the error kinds of section 7; the code that raises
them lives in `utils/pointer_utils.h`, which is not part of the sources at hand. -/
inductive PointerError where
  | DanglingObserverReference
  | UnresolvedPointerReference
  | UnknownPolymorphicType
  | NullNotNullPointer
  | DoubleOwnership
deriving DecidableEq, Repr

/-- Modelled from the spec: the write side of the Linking Context
(`utils/pointer_utils.h`, not part of the sources at hand): the addresses seen
in this pass with the id each was given, and the number of ids handed out so
far. Ids are handed out in first-seen order by a monotonic counter that starts
after the reserved null id `0`. -/
structure LinkingContext where
  ptrMap : List (Nat × Nat)
  currId : Nat
deriving DecidableEq, Repr

/-- Modelled from the spec: the id emitted for an Owner or Embedded occurrence
on the write path (sections 4.3 and 4.4; the code is in
`utils/pointer_utils.h`, not part of the sources at hand). A null pointer is
encoded as the id `0` under `Nullable` and fails with `NullNotNullPointer`
under `NotNull`; an address already seen in this pass is `DoubleOwnership`;
any other address receives the next sequential id and is recorded. -/
def LinkingContext.writeOwnerId (ctx : LinkingContext) (ptrType : PointerType) (ptr : Ptr) :
    Except PointerError (Nat × LinkingContext) :=
  match ptr with
  | none =>
    match ptrType with
    | PointerType.Nullable => Except.ok (0, ctx)
    | PointerType.NotNull => Except.error PointerError.NullNotNullPointer
  | some a =>
    if ctx.ptrMap.any (fun e => e.1 == a) then
      Except.error PointerError.DoubleOwnership
    else
      Except.ok (ctx.currId + 1,
        { ptrMap := (a, ctx.currId + 1) :: ctx.ptrMap, currId := ctx.currId + 1 })

/-- A program state with several owner slots (variables of pointer type managed
by `PtrOwnerManager`) and the free store they point into. -/
structure OwnerSlots where
  slots : List Ptr
  heap : Heap
deriving DecidableEq, Repr

namespace OwnerSlots

/-- Runs `PtrOwnerManager::assign(slot i, p)` on the state: the manager is
handed slot `i` by reference and the new target. -/
def assign (s : OwnerSlots) (i : Fin s.slots.length) (p : Ptr) : OwnerSlots :=
  let r := pointer_details.PtrOwnerManager.assign s.slots[i] p s.heap
  { slots := s.slots.set i r.1, heap := r.2 }

/-- Runs `PtrOwnerManager::clear(slot i)` on the state: the manager is handed
slot `i` by reference. -/
def clear (s : OwnerSlots) (i : Fin s.slots.length) : OwnerSlots :=
  let r := pointer_details.PtrOwnerManager.clear s.slots[i] s.heap
  { slots := s.slots.set i r.1, heap := r.2 }

/-- No two owner slots hold the same non-null address. -/
def exclusive (s : OwnerSlots) : Prop :=
  s.slots.Pairwise (fun x y => x = none ∨ x ≠ y)

instance (s : OwnerSlots) : Decidable s.exclusive := by
  unfold exclusive; infer_instance

/-- Some owner slot other than slot `i` holds the pointer `p`. -/
def heldElsewhere (s : OwnerSlots) (i : Fin s.slots.length) (p : Ptr) : Prop :=
  ∃ j : Fin s.slots.length, j ≠ i ∧ s.slots[j] = p

instance (s : OwnerSlots) (i : Fin s.slots.length) (p : Ptr) :
    Decidable (s.heldElsewhere i p) := by
  unfold heldElsewhere; infer_instance

end OwnerSlots

end ext

namespace traits

/-- Modelled from the spec: an RTTI provider, the template parameter `RTTI` of
`PointerOwnerBase`. Its definition (`utils/rtti_utils.h`) is not part of the
sources at hand; `pointer.h` uses one member of it, the compile-time
predicate `RTTI::isPolymorphic<T>()` on pointee types. `Ty` is the collection
of pointee types. -/
structure RTTI (Ty : Type) where
  isPolymorphic : Ty → Bool

/-- The three constants every `ExtensionTraits` specialisation of `pointer.h`
declares. -/
structure ExtensionTraits where
  SupportValueOverload : Bool
  SupportObjectOverload : Bool
  SupportLambdaOverload : Bool
deriving DecidableEq, Repr

namespace ExtensionTraits

/-- `ExtensionTraits<ext::PointerOwnerBase<RTTI>, T*>`: the lambda overload is
enabled when the underlying type is not polymorphic. -/
def PointerOwnerBase {Ty : Type} (rtti : RTTI Ty) (T : Ty) : ExtensionTraits :=
  { SupportValueOverload := true
    SupportObjectOverload := true
    SupportLambdaOverload := !rtti.isPolymorphic T }

/-- `ExtensionTraits<ext::PointerObserver, T*>`. -/
def PointerObserver {Ty : Type} (_T : Ty) : ExtensionTraits :=
  { SupportValueOverload := true
    SupportObjectOverload := true
    SupportLambdaOverload := false }

/-- `ExtensionTraits<ext::ReferencedByPointer, T>`. -/
def ReferencedByPointer {Ty : Type} (_T : Ty) : ExtensionTraits :=
  { SupportValueOverload := true
    SupportObjectOverload := true
    SupportLambdaOverload := true }

end ExtensionTraits

end traits

/-! ## Properties of the pointer managers -/

open ext ext.pointer_details

theorem Heap.mem_live_delete_some (h : Heap) (a b : Nat) :
    b ∈ (h.delete (some a)).live ↔ b ∈ h.live ∧ b ≠ a := by
  simp [Heap.delete, List.mem_filter]

theorem Heap.destroyed_delete_some (h : Heap) (a : Nat) :
    (h.delete (some a)).destroyed = h.destroyed ++ [a] := rfl

theorem Heap.delete_none (h : Heap) : h.delete none = h := rfl

/-- C1: `PtrOwnerManager::assign` on a slot holding the address `a` destroys the
instance at `a`, exactly once and no other, and leaves the slot holding the new
target `p`, which `getPtr` then returns; on a slot holding `nullptr` nothing is
destroyed and the slot holds `p` afterwards. -/
theorem owner_assign_destroys_old_stores_new (a : Nat) (p : Ptr) (h : Heap) :
    (PtrOwnerManager.getPtr (PtrOwnerManager.assign (some a) p h).1 = p
      ∧ (PtrOwnerManager.assign (some a) p h).2.destroyed = h.destroyed ++ [a]
      ∧ (PtrOwnerManager.assign (some a) p h).2.destroyed.length = h.destroyed.length + 1
      ∧ a ∉ (PtrOwnerManager.assign (some a) p h).2.live
      ∧ ∀ b, b ≠ a → (b ∈ (PtrOwnerManager.assign (some a) p h).2.live ↔ b ∈ h.live))
    ∧ (PtrOwnerManager.getPtr (PtrOwnerManager.assign none p h).1 = p
      ∧ (PtrOwnerManager.assign none p h).2 = h) := by
  refine ⟨⟨rfl, rfl, ?_, ?_, ?_⟩, rfl, rfl⟩
  · simp [PtrOwnerManager.assign, Heap.destroyed_delete_some]
  · simp [PtrOwnerManager.assign, Heap.mem_live_delete_some]
  · intro b hb
    simp [PtrOwnerManager.assign, Heap.mem_live_delete_some, hb]

/-- C2: `PtrOwnerManager::clear` destroys the instance the slot held, if any, and
leaves the slot null, so `getPtr` returns `nullptr` afterwards; clearing the
slot a second time changes neither the slot nor the heap: nothing further is
destroyed. -/
theorem owner_clear_destroys_and_nulls (a : Nat) (obj : Ptr) (h : Heap) :
    (PtrOwnerManager.getPtr (PtrOwnerManager.clear (some a) h).1 = none
      ∧ (PtrOwnerManager.clear (some a) h).2.destroyed = h.destroyed ++ [a]
      ∧ a ∉ (PtrOwnerManager.clear (some a) h).2.live
      ∧ ∀ b, b ≠ a → (b ∈ (PtrOwnerManager.clear (some a) h).2.live ↔ b ∈ h.live))
    ∧ (PtrOwnerManager.getPtr (PtrOwnerManager.clear none h).1 = none
      ∧ (PtrOwnerManager.clear none h).2 = h)
    ∧ (PtrOwnerManager.getPtr (PtrOwnerManager.clear obj h).1 = none
      ∧ PtrOwnerManager.clear (PtrOwnerManager.clear obj h).1 (PtrOwnerManager.clear obj h).2
          = (none, (PtrOwnerManager.clear obj h).2)) := by
  refine ⟨⟨rfl, rfl, ?_, ?_⟩, ⟨rfl, rfl⟩, rfl, rfl⟩
  · simp [PtrOwnerManager.clear, Heap.mem_live_delete_some]
  · intro b hb
    simp [PtrOwnerManager.clear, Heap.mem_live_delete_some, hb]

/-- C3: `PtrObserverManager::assign` only makes the slot hold `p` and
`PtrObserverManager::clear` only makes the slot null: the heap (the live
instances and the log of destructions) is the same before and after, and the
instance the slot referred to before is alive afterwards exactly when it was
before. -/
theorem observer_assign_clear_leave_heap (obj p : Ptr) (h : Heap) :
    (PtrObserverManager.getPtr (PtrObserverManager.assign obj p h).1 = p
      ∧ (PtrObserverManager.assign obj p h).2.live = h.live
      ∧ (PtrObserverManager.assign obj p h).2.destroyed = h.destroyed
      ∧ (PtrObserverManager.assign obj p h).2.isLive obj = h.isLive obj)
    ∧ (PtrObserverManager.getPtr (PtrObserverManager.clear obj h).1 = none
      ∧ (PtrObserverManager.clear obj h).2.live = h.live
      ∧ (PtrObserverManager.clear obj h).2.destroyed = h.destroyed
      ∧ (PtrObserverManager.clear obj h).2.isLive obj = h.isLive obj) :=
  ⟨⟨rfl, rfl, rfl, rfl⟩, rfl, rfl, rfl, rfl⟩

/-- C4: `NonPtrManager::getPtr` returns the address of the inline value itself,
never `nullptr`; `NonPtrManager::assign` and `NonPtrManager::clear` change
nothing: the inline value, its address, what `getPtr` returns and the heap are
the same afterwards. -/
theorem nonptr_getPtr_inline_assign_clear_noop {T : Type} (obj : Inline T) (p : Ptr) (h : Heap) :
    NonPtrManager.getPtr obj = some obj.addr
    ∧ NonPtrManager.getPtr obj ≠ none
    ∧ (NonPtrManager.assign obj p h = (obj, h)
      ∧ (NonPtrManager.assign obj p h).1.value = obj.value
      ∧ NonPtrManager.getPtr (NonPtrManager.assign obj p h).1 = NonPtrManager.getPtr obj
      ∧ (NonPtrManager.assign obj p h).2.live = h.live
      ∧ (NonPtrManager.assign obj p h).2.destroyed = h.destroyed)
    ∧ (NonPtrManager.clear obj h = (obj, h)
      ∧ (NonPtrManager.clear obj h).1.value = obj.value
      ∧ NonPtrManager.getPtr (NonPtrManager.clear obj h).1 = NonPtrManager.getPtr obj
      ∧ (NonPtrManager.clear obj h).2.live = h.live
      ∧ (NonPtrManager.clear obj h).2.destroyed = h.destroyed) := by
  refine ⟨rfl, ?_, ⟨rfl, rfl, rfl, rfl, rfl⟩, rfl, rfl, rfl, rfl, rfl⟩
  simp [NonPtrManager.getPtr]

/-- C5, as the claim states it, fails: the manager of inline values does not
report an ownership kind of its own, `NonPtrManager::getOwnership()` is
`PointerOwnershipType::Owner`. -/
theorem getOwnership_nonptr_not_embedded :
    ¬ (PtrOwnerManager.getOwnership = PointerOwnershipType.Owner
      ∧ PtrObserverManager.getOwnership = PointerOwnershipType.Observer
      ∧ NonPtrManager.getOwnership = PointerOwnershipType.Embedded) := by
  decide

/-- C5, amended: `getOwnership()` is a constant of each manager; the owner
manager returns `Owner`, the observer manager returns `Observer`, and the
manager of inline values returns `Owner` as well, so the three managers report
two distinct kinds. -/
theorem getOwnership_constants :
    PtrOwnerManager.getOwnership = PointerOwnershipType.Owner
    ∧ PtrObserverManager.getOwnership = PointerOwnershipType.Observer
    ∧ NonPtrManager.getOwnership = PointerOwnershipType.Owner
    ∧ NonPtrManager.getOwnership = PtrOwnerManager.getOwnership
    ∧ PtrObserverManager.getOwnership ≠ PtrOwnerManager.getOwnership := by
  decide

/-! ## Properties of the extension traits -/

open traits

/-- C6: for the owner extension over any RTTI provider and any pointee type,
the lambda overload is disabled exactly when the provider reports the pointee
type as polymorphic and enabled exactly when it reports it as non-polymorphic;
the value and object overloads are supported in both cases. -/
theorem owner_traits_lambda_iff_not_polymorphic {Ty : Type} (rtti : RTTI Ty) (T : Ty) :
    ((ExtensionTraits.PointerOwnerBase rtti T).SupportLambdaOverload = false
        ↔ rtti.isPolymorphic T = true)
    ∧ ((ExtensionTraits.PointerOwnerBase rtti T).SupportLambdaOverload = true
        ↔ rtti.isPolymorphic T = false)
    ∧ (ExtensionTraits.PointerOwnerBase rtti T).SupportValueOverload = true
    ∧ (ExtensionTraits.PointerOwnerBase rtti T).SupportObjectOverload = true := by
  cases hT : rtti.isPolymorphic T <;> simp [ExtensionTraits.PointerOwnerBase, hT]

/-- C7, as the claim states it, fails: the traits of the observer extension do
not advertise the lambda overload (shown at the pointee type numbered `0`). -/
theorem observer_traits_lambda_not_supported :
    ¬ ((ExtensionTraits.PointerObserver (0 : Nat)).SupportLambdaOverload = true
      ∧ (ExtensionTraits.ReferencedByPointer (0 : Nat)).SupportLambdaOverload = true) := by
  decide

/-- C7, amended: for every pointee type the traits of `ReferencedByPointer`
advertise the lambda overload, and the traits of `PointerObserver` do not; both
advertise the value and object overloads. -/
theorem observer_and_referenced_traits {Ty : Type} (T : Ty) :
    (ExtensionTraits.ReferencedByPointer T).SupportLambdaOverload = true
    ∧ (ExtensionTraits.PointerObserver T).SupportLambdaOverload = false
    ∧ (ExtensionTraits.PointerObserver T).SupportValueOverload = true
    ∧ (ExtensionTraits.PointerObserver T).SupportObjectOverload = true
    ∧ (ExtensionTraits.ReferencedByPointer T).SupportValueOverload = true
    ∧ (ExtensionTraits.ReferencedByPointer T).SupportObjectOverload = true :=
  ⟨rfl, rfl, rfl, rfl, rfl, rfl⟩

/-! ## The embedded extension is never null -/

/-- C8: every `ReferencedByPointer` is the value its one constructor builds and
is configured `NotNull`, never `Nullable`; `NonPtrManager::getPtr` never returns
`nullptr`; hence writing the id of an embedded pointee never emits the null id
`0` and never fails with `NullNotNullPointer`. -/
theorem referencedByPointer_notNull_never_null_id {T : Type} (r : ReferencedByPointer)
    (obj : Inline T) (ctx : LinkingContext) :
    r = ReferencedByPointer.mk
    ∧ r.toBase.ptrType = PointerType.NotNull
    ∧ r.toBase.ptrType ≠ PointerType.Nullable
    ∧ NonPtrManager.getPtr obj ≠ none
    ∧ (∀ ctx₁, ctx.writeOwnerId r.toBase.ptrType (NonPtrManager.getPtr obj)
          ≠ Except.ok (0, ctx₁))
    ∧ ctx.writeOwnerId r.toBase.ptrType (NonPtrManager.getPtr obj)
          ≠ Except.error PointerError.NullNotNullPointer := by
  cases r
  refine ⟨rfl, rfl, by decide, by simp [NonPtrManager.getPtr], ?_, ?_⟩
  · intro ctx₁
    simp only [LinkingContext.writeOwnerId, NonPtrManager.getPtr]
    split <;> simp
  · simp only [LinkingContext.writeOwnerId, NonPtrManager.getPtr]
    split <;> simp

/-! ## Liveness after an owner assignment -/

/-- C10: after `PtrOwnerManager::assign` the slot holds the new target `p`, the
instance the slot held before is destroyed (one destructor call on it is
logged and it is no longer alive), and the liveness of no other instance
changes; hence, when `p` is alive before the call, the slot holds a live
instance afterwards if and only if `p` differs from what the slot held; and
assigning a slot that holds `a` its own address `a` leaves the slot holding
`a` with the instance at `a` destroyed. -/
theorem owner_assign_liveness (obj p : Ptr) (a : Nat) (h : Heap) :
    PtrOwnerManager.getPtr (PtrOwnerManager.assign obj p h).1 = p
    ∧ (PtrOwnerManager.assign obj p h).2.isLive obj = false
    ∧ (PtrOwnerManager.assign obj p h).2.destroyed = h.destroyed ++ obj.toList
    ∧ (∀ b : Nat, some b ≠ obj →
        (PtrOwnerManager.assign obj p h).2.isLive (some b) = h.isLive (some b))
    ∧ (h.isLive p = true →
        ((PtrOwnerManager.assign obj p h).2.isLive
            (PtrOwnerManager.getPtr (PtrOwnerManager.assign obj p h).1) = true
          ↔ p ≠ obj))
    ∧ (PtrOwnerManager.getPtr (PtrOwnerManager.assign (some a) (some a) h).1 = some a
      ∧ (PtrOwnerManager.assign (some a) (some a) h).2.isLive
          (PtrOwnerManager.getPtr (PtrOwnerManager.assign (some a) (some a) h).1) = false
      ∧ a ∉ (PtrOwnerManager.assign (some a) (some a) h).2.live
      ∧ (PtrOwnerManager.assign (some a) (some a) h).2.destroyed = h.destroyed ++ [a]) := by
  refine ⟨rfl, ?_, ?_, ?_, ?_, rfl, ?_, ?_, rfl⟩
  · cases obj with
    | none => rfl
    | some c => simp [PtrOwnerManager.assign, Heap.isLive, Heap.mem_live_delete_some]
  · cases obj with
    | none => simp [PtrOwnerManager.assign, Heap.delete_none]
    | some c => simp [PtrOwnerManager.assign, Heap.destroyed_delete_some]
  · intro b hb
    cases obj with
    | none => rfl
    | some c =>
      have hbc : b ≠ c := fun e => hb (by rw [e])
      simp [PtrOwnerManager.assign, Heap.isLive, Heap.mem_live_delete_some, hbc]
  · intro hp
    cases p with
    | none => simp [Heap.isLive] at hp
    | some q =>
      cases obj with
      | none => simpa [PtrOwnerManager.assign, PtrOwnerManager.getPtr, Heap.delete] using hp
      | some c =>
        have hq : q ∈ h.live := by simpa [Heap.isLive] using hp
        simp [PtrOwnerManager.assign, PtrOwnerManager.getPtr, Heap.isLive,
          Heap.mem_live_delete_some, hq]
  · simp [PtrOwnerManager.assign, PtrOwnerManager.getPtr, Heap.isLive,
      Heap.mem_live_delete_some]
  · simp [PtrOwnerManager.assign, Heap.mem_live_delete_some]

/-- C10 at a concrete state: with the instances at `1` and `2` alive, assigning
`2` to the slot holding `1` leaves the slot holding `2`, a live instance, with
`1` destroyed; assigning the slot its own address `1` leaves it holding `1`,
which is destroyed: not alive, and logged as the one destruction. -/
theorem owner_assign_liveness_witness :
    (PtrOwnerManager.getPtr (PtrOwnerManager.assign (some 1) (some 2) ⟨[1, 2], []⟩).1 = some 2
      ∧ (PtrOwnerManager.assign (some 1) (some 2) ⟨[1, 2], []⟩).2.isLive
          (PtrOwnerManager.getPtr (PtrOwnerManager.assign (some 1) (some 2) ⟨[1, 2], []⟩).1)
            = true
      ∧ (PtrOwnerManager.assign (some 1) (some 2) ⟨[1, 2], []⟩).2.isLive (some 1) = false)
    ∧ (PtrOwnerManager.getPtr (PtrOwnerManager.assign (some 1) (some 1) ⟨[1, 2], []⟩).1 = some 1
      ∧ (PtrOwnerManager.assign (some 1) (some 1) ⟨[1, 2], []⟩).2.isLive
          (PtrOwnerManager.getPtr (PtrOwnerManager.assign (some 1) (some 1) ⟨[1, 2], []⟩).1)
            = false
      ∧ (PtrOwnerManager.assign (some 1) (some 1) ⟨[1, 2], []⟩).2.destroyed = [1]) :=
  ⟨⟨(owner_assign_liveness (some 1) (some 2) 1 ⟨[1, 2], []⟩).1,
    ((owner_assign_liveness (some 1) (some 2) 1 ⟨[1, 2], []⟩).2.2.2.2.1 (by decide)).2
      (by decide),
    (owner_assign_liveness (some 1) (some 2) 1 ⟨[1, 2], []⟩).2.1⟩,
   (owner_assign_liveness (some 1) (some 1) 1 ⟨[1, 2], []⟩).2.2.2.2.2.1,
   (owner_assign_liveness (some 1) (some 1) 1 ⟨[1, 2], []⟩).2.2.2.2.2.2.1,
   (owner_assign_liveness (some 1) (some 1) 1 ⟨[1, 2], []⟩).2.2.2.2.2.2.2.2⟩

/-! ## Exclusive ownership across several owner slots -/

theorem pairwise_exclusive_iff (l : List Ptr) :
    l.Pairwise (fun x y => x = none ∨ x ≠ y) ↔
      ∀ (j k : Nat) (hj : j < l.length) (hk : k < l.length),
        l[j] = l[k] → l[j] ≠ none → j = k := by
  rw [List.pairwise_iff_getElem]
  constructor
  · intro hl j k hj hk hjk hne
    rcases Nat.lt_trichotomy j k with hlt | heq | hgt
    · rcases hl j k hj hk hlt with h0 | h1
      · exact absurd h0 hne
      · exact absurd hjk h1
    · exact heq
    · rcases hl k j hk hj hgt with h0 | h1
      · exact absurd (hjk.trans h0) hne
      · exact absurd hjk.symm h1
  · intro hl j k hj hk hlt
    by_cases h0 : l[j] = none
    · exact Or.inl h0
    · refine Or.inr (fun hjk => ?_)
      have := hl j k hj hk hjk h0
      omega

theorem pairwise_exclusive_set (l : List Ptr) (i : Nat) (hi : i < l.length) (p : Ptr)
    (hl : l.Pairwise (fun x y => x = none ∨ x ≠ y)) :
    (l.set i p).Pairwise (fun x y => x = none ∨ x ≠ y) ↔
      (p = none ∨ ¬ ∃ (j : Nat) (hj : j < l.length), j ≠ i ∧ l[j] = p) := by
  rw [pairwise_exclusive_iff] at hl ⊢
  constructor
  · intro hset
    by_cases hp : p = none
    · exact Or.inl hp
    · refine Or.inr ?_
      rintro ⟨j, hj, hji, hjp⟩
      have hi₁ : i < (l.set i p).length := by simpa using hi
      have hj₁ : j < (l.set i p).length := by simpa using hj
      have e : (l.set i p)[i] = (l.set i p)[j] := by
        rw [List.getElem_set_self, List.getElem_set_ne (Ne.symm hji), hjp]
      have hn : (l.set i p)[i] ≠ none := by
        rw [List.getElem_set_self]; exact hp
      exact hji (hset i j hi₁ hj₁ e hn).symm
  · intro hp j k hj hk hjk hne
    have hj₀ : j < l.length := by simpa using hj
    have hk₀ : k < l.length := by simpa using hk
    rw [List.getElem_set] at hjk hne
    rw [List.getElem_set] at hjk
    by_cases hij : i = j
    · by_cases hik : i = k
      · omega
      · rw [if_pos hij, if_neg hik] at hjk
        rw [if_pos hij] at hne
        rcases hp with h0 | h1
        · exact absurd h0 hne
        · exact absurd ⟨k, hk₀, Ne.symm hik, hjk.symm⟩ h1
    · by_cases hik : i = k
      · rw [if_neg hij, if_pos hik] at hjk
        rw [if_neg hij] at hne
        rcases hp with h0 | h1
        · exact absurd (hjk.trans h0) hne
        · exact absurd ⟨j, hj₀, Ne.symm hij, hjk⟩ h1
      · rw [if_neg hij, if_neg hik] at hjk
        rw [if_neg hij] at hne
        exact hl j k hj₀ hk₀ hjk hne

theorem OwnerSlots.slots_assign (s : OwnerSlots) (i : Fin s.slots.length) (p : Ptr) :
    (s.assign i p).slots = s.slots.set i p := rfl

theorem OwnerSlots.slots_clear (s : OwnerSlots) (i : Fin s.slots.length) :
    (s.clear i).slots = s.slots.set i none := rfl

/-- C9, as the claim states it, fails: with slot 1 the one owner of the address
`5`, `assign(slot 0, 5)` leads to a state where slots 0 and 1 both hold `5`. -/
theorem owner_assign_can_duplicate_address :
    (OwnerSlots.mk [none, some 5] ⟨[5], []⟩).exclusive
    ∧ ¬ ((OwnerSlots.mk [none, some 5] ⟨[5], []⟩).assign ⟨0, by decide⟩ (some 5)).exclusive := by
  decide

/-- C9, amended: from a state where no two owner slots hold the same non-null
address, `clear(slot)` always leads to such a state, and `assign(slot, p)`
leads to such a state exactly when `p` is null or no other owner slot holds
`p`. -/
theorem owner_slots_exclusive_preserved (s : OwnerSlots) (i : Fin s.slots.length) (p : Ptr)
    (hs : s.exclusive) :
    (s.clear i).exclusive
    ∧ ((s.assign i p).exclusive ↔ (p = none ∨ ¬ s.heldElsewhere i p)) := by
  unfold OwnerSlots.exclusive at hs ⊢
  rw [OwnerSlots.slots_clear, OwnerSlots.slots_assign]
  constructor
  · exact (pairwise_exclusive_set s.slots i i.isLt none hs).mpr (Or.inl rfl)
  · rw [pairwise_exclusive_set s.slots i i.isLt p hs]
    have hheld : s.heldElsewhere i p ↔
        ∃ (j : Nat) (hj : j < s.slots.length), j ≠ i.val ∧ s.slots[j] = p := by
      constructor
      · rintro ⟨j, hji, hjp⟩
        exact ⟨j.val, j.isLt, fun e => hji (Fin.ext e), hjp⟩
      · rintro ⟨j, hj, hji, hjp⟩
        exact ⟨⟨j, hj⟩, fun e => hji (congrArg Fin.val e), hjp⟩
    rw [hheld]

/-- C9, amended, at a concrete state: slots holding `1`, null and `2`; clearing
slot 0 and assigning it the fresh address `3` both keep the owners exclusive. -/
theorem owner_slots_exclusive_preserved_witness :
    (OwnerSlots.mk [some 1, none, some 2] ⟨[1, 2, 3], []⟩).exclusive
    ∧ ((OwnerSlots.mk [some 1, none, some 2] ⟨[1, 2, 3], []⟩).clear ⟨0, by decide⟩).exclusive
    ∧ ((OwnerSlots.mk [some 1, none, some 2] ⟨[1, 2, 3], []⟩).assign
          ⟨0, by decide⟩ (some 3)).exclusive :=
  ⟨by decide,
   (owner_slots_exclusive_preserved (OwnerSlots.mk [some 1, none, some 2] ⟨[1, 2, 3], []⟩)
      ⟨0, by decide⟩ (some 3) (by decide)).1,
   (owner_slots_exclusive_preserved (OwnerSlots.mk [some 1, none, some 2] ⟨[1, 2, 3], []⟩)
      ⟨0, by decide⟩ (some 3) (by decide)).2.mpr (Or.inr (by decide))⟩

end bitsery
